import Mathlib

/-!
# Verification of django-post_office: comma-separated email field and
# template-engine selection

Shallow embedding of `post_office/fields.py` (`CommaSeparatedEmailField`:
`get_prep_value`, `to_python`) together with the template-engine selector and
placeholder renderer exercised by `post_office/tests/test_render.py`.
Python strings are `String` (lists of characters), Python lists of strings are
`List String`.  Dynamic typing of the field's values is captured by the
inductive `PyValue` (a value is a `str` or a sequence of strings); the
dynamically-typed error behaviour is captured separately by `PyObj` and
`Except`-returning variants.
-/

/-- Model of Python `str.strip` on the character list of a string: drop
whitespace from the front, then from the back. -/
def stripChars (cs : List Char) : List Char :=
  ((cs.dropWhile Char.isWhitespace).reverse.dropWhile Char.isWhitespace).reverse

/-- Model of Python `str.strip` on strings. -/
def pyStrip (s : String) : String :=
  String.mk (stripChars s.data)

/-- Model of Python `value.split(',')` on the character list: the empty string
yields one (empty) part, and every comma starts a new part.  In particular
`splitCommaChars [] = [[]]` and empty segments are kept, matching CPython. -/
def splitCommaChars : List Char → List (List Char)
  | [] => [[]]
  | c :: rest =>
    if c = ',' then [] :: splitCommaChars rest
    else
      match splitCommaChars rest with
      | [] => [[c]]
      | p :: ps => (c :: p) :: ps

/-- Model of Python `value.split(',')` on strings. -/
def pySplit (s : String) : List String :=
  (splitCommaChars s.data).map String.mk

/-- Model of Python `sep.join(parts)`. -/
def pyJoin (sep : String) : List String → String
  | [] => ""
  | [s] => s
  | s :: t :: rest => s ++ sep ++ pyJoin sep (t :: rest)

/-- A value of the field as the claims quantify over it: either a Python
`str` or a sequence of strings. -/
inductive PyValue where
  | str : String → PyValue
  | seq : List String → PyValue
deriving DecidableEq

/-- `CommaSeparatedEmailField.get_prep_value` (post_office/fields.py):
a string is returned unchanged; otherwise the value is treated as a sequence
of strings, each element is stripped and the results joined with `", "`. -/
def get_prep_value : PyValue → String
  | .str s => s
  | .seq l => pyJoin ", " (l.map pyStrip)

/-- `CommaSeparatedEmailField.to_python` (post_office/fields.py): a string is
split on `','` with each part stripped (the empty string giving the empty
list); any non-string value is returned unchanged. -/
def to_python : PyValue → PyValue
  | .str s => if s = "" then .seq [] else .seq ((pySplit s).map pyStrip)
  | .seq l => .seq l

/-! ### Basic lemmas about `splitCommaChars`, `stripChars` and `pyJoin` -/

theorem splitCommaChars_ne_nil (cs : List Char) : splitCommaChars cs ≠ [] := by
  induction cs with
  | nil => simp [splitCommaChars]
  | cons c rest ih =>
    unfold splitCommaChars
    by_cases h : c = ','
    · simp [h]
    · simp only [h, if_false]
      cases hr : splitCommaChars rest with
      | nil => simp
      | cons p ps => simp

theorem splitCommaChars_no_comma (cs : List Char) (h : ∀ c ∈ cs, c ≠ ',') :
    splitCommaChars cs = [cs] := by
  induction cs with
  | nil => rfl
  | cons c rest ih =>
    have hc : c ≠ ',' := h c (List.mem_cons_self c rest)
    have hrest : splitCommaChars rest = [rest] :=
      ih fun x hx => h x (List.mem_cons_of_mem c hx)
    unfold splitCommaChars
    simp [hc, hrest]

theorem splitCommaChars_append_comma (a b : List Char) (h : ∀ c ∈ a, c ≠ ',') :
    splitCommaChars (a ++ ',' :: b) = a :: splitCommaChars b := by
  induction a with
  | nil => simp [splitCommaChars]
  | cons c a ih =>
    have hc : c ≠ ',' := h c (List.mem_cons_self c a)
    have ha : splitCommaChars (a ++ ',' :: b) = a :: splitCommaChars b :=
      ih fun x hx => h x (List.mem_cons_of_mem c hx)
    rw [List.cons_append, splitCommaChars.eq_def]
    simp [hc, ha]

theorem stripChars_cons_space (cs : List Char) :
    stripChars (' ' :: cs) = stripChars cs := by
  unfold stripChars
  simp [List.dropWhile_cons]

theorem pyJoin_ne_empty (x : String) (rest : List String) (hx : x ≠ "") :
    pyJoin ", " (x :: rest) ≠ "" := by
  cases rest with
  | nil => simpa [pyJoin] using hx
  | cons y t =>
    intro hcontra
    have hdata := congrArg String.data hcontra
    simp [pyJoin, String.data_append] at hdata

theorem map_pyStrip_id (L : List String) (h : ∀ x ∈ L, pyStrip x = x) :
    L.map pyStrip = L := by
  induction L with
  | nil => rfl
  | cons x r ih =>
    rw [List.map_cons, h x (List.mem_cons_self x r),
      ih fun z hz => h z (List.mem_cons_of_mem x hz)]

theorem map_strip_splitCommaChars_cons_space (cs : List Char) :
    (splitCommaChars (' ' :: cs)).map (fun p => String.mk (stripChars p)) =
      (splitCommaChars cs).map (fun p => String.mk (stripChars p)) := by
  cases hr : splitCommaChars cs with
  | nil => exact absurd hr (splitCommaChars_ne_nil cs)
  | cons p ps =>
    rw [splitCommaChars.eq_def]
    simp [hr, stripChars_cons_space, show (' ' : Char) ≠ ',' by decide]

/-- Splitting the `", "`-join of a list of comma-free, already-stripped strings
and stripping each part recovers the list. -/
theorem parse_join_strip (L : List String) (hne : L ≠ [])
    (h : ∀ x ∈ L, (∀ c ∈ x.data, c ≠ ',') ∧ pyStrip x = x) :
    (splitCommaChars (pyJoin ", " L).data).map (fun p => String.mk (stripChars p)) = L := by
  induction L with
  | nil => exact absurd rfl hne
  | cons x rest ih =>
    have hx := h x (List.mem_cons_self x rest)
    have hfx : String.mk (stripChars x.data) = x := hx.2
    cases rest with
    | nil =>
      rw [show pyJoin ", " [x] = x from rfl, splitCommaChars_no_comma x.data hx.1]
      simp [hfx]
    | cons y t =>
      have hdata : (pyJoin ", " (x :: y :: t)).data
          = x.data ++ ',' :: ' ' :: (pyJoin ", " (y :: t)).data := by
        show (x ++ ", " ++ pyJoin ", " (y :: t)).data = _
        rw [String.data_append, String.data_append]
        simp [show (", " : String).data = [',', ' '] from rfl]
      have ihr := ih (by simp) fun z hz => h z (List.mem_cons_of_mem x hz)
      rw [hdata, splitCommaChars_append_comma x.data _ hx.1, List.map_cons,
        map_strip_splitCommaChars_cons_space, hfx, ihr]

theorem map_pyStrip_pySplit (s : String) :
    (pySplit s).map pyStrip
      = (splitCommaChars s.data).map (fun p => String.mk (stripChars p)) := by
  simp only [pySplit, List.map_map]
  rfl

/-! ### Claim theorems about the comma-separated email field -/

/-- C1: for every list `L` of trimmed, comma-free (non-empty) email strings,
parsing the serialization of `L` returns `L`:
`to_python (get_prep_value L) = L`. -/
theorem roundtrip_to_python_get_prep_value (L : List String)
    (h : ∀ x ∈ L, pyStrip x = x ∧ x ≠ "" ∧ ∀ c ∈ x.data, c ≠ ',') :
    to_python (.str (get_prep_value (.seq L))) = .seq L := by
  cases L with
  | nil => rfl
  | cons x rest =>
    show to_python (.str (pyJoin ", " ((x :: rest).map pyStrip))) = .seq (x :: rest)
    rw [map_pyStrip_id _ fun z hz => (h z hz).1]
    have hne := pyJoin_ne_empty x rest (h x (List.mem_cons_self x rest)).2.1
    simp only [to_python, if_neg hne, PyValue.seq.injEq]
    rw [map_pyStrip_pySplit]
    exact parse_join_strip (x :: rest) (by simp)
      fun z hz => ⟨(h z hz).2.2, (h z hz).1⟩

/-- Witness for C1 at the concrete list `["a@x.com", "b@y.com"]`. -/
theorem roundtrip_to_python_get_prep_value_witness :
    to_python (.str (get_prep_value (.seq ["a@x.com", "b@y.com"])))
      = .seq ["a@x.com", "b@y.com"] :=
  roundtrip_to_python_get_prep_value ["a@x.com", "b@y.com"] (by decide)

theorem intercalate_go_pyJoin (sep : String) :
    ∀ (as : List String) (acc : String),
      String.intercalate.go acc sep as = pyJoin sep (acc :: as) := by
  intro as
  induction as with
  | nil => intro acc; rfl
  | cons a as ih =>
    intro acc
    rw [show String.intercalate.go acc sep (a :: as)
        = String.intercalate.go (acc ++ sep ++ a) sep as from rfl, ih]
    cases as with
    | nil => rfl
    | cons b t =>
      simp only [pyJoin]
      simp [String.append_assoc]

theorem pyJoin_eq_intercalate (sep : String) (l : List String) :
    pyJoin sep l = String.intercalate sep l := by
  cases l with
  | nil => rfl
  | cons a as =>
    show pyJoin sep (a :: as) = String.intercalate.go a sep as
    rw [intercalate_go_pyJoin sep as a]

/-- C4: `to_python` on a string splits on `','` and strips surrounding
whitespace from each part, and maps the empty string to the empty list;
in particular `to_python "" = []` and
`to_python "a@x.com, b@y.com" = ["a@x.com", "b@y.com"]`. -/
theorem to_python_splits_and_strips :
    to_python (.str "") = .seq []
      ∧ to_python (.str "a@x.com, b@y.com") = .seq ["a@x.com", "b@y.com"]
      ∧ ∀ s : String, s ≠ "" →
          to_python (.str s)
            = .seq ((splitCommaChars s.data).map fun p => String.mk (stripChars p)) := by
  refine ⟨rfl, by decide, fun s hs => ?_⟩
  simp only [to_python, if_neg hs, PyValue.seq.injEq]
  exact map_pyStrip_pySplit s

/-- Witness for the universally quantified part of C4 at the string `"x"`. -/
theorem to_python_splits_and_strips_witness :
    to_python (.str "x")
      = .seq ((splitCommaChars ("x" : String).data).map fun p => String.mk (stripChars p)) :=
  to_python_splits_and_strips.2.2 "x" (by decide)

/-- C5: `get_prep_value` returns every string input unchanged, including
strings containing commas without spaces. -/
theorem get_prep_value_string_passthrough (s : String) :
    get_prep_value (.str s) = s := rfl

/-- C6: `get_prep_value` on a sequence of strings strips each element and
joins the results with the separator `", "` (here stated against the library
join `String.intercalate`). -/
theorem get_prep_value_seq_join_strip (l : List String) :
    get_prep_value (.seq l) = String.intercalate ", " (l.map pyStrip) := by
  show pyJoin ", " (l.map pyStrip) = _
  exact pyJoin_eq_intercalate ", " (l.map pyStrip)

/-- C9: `to_python` returns every non-string input unchanged, and is
idempotent on every value. -/
theorem to_python_nonstring_id_and_idempotent :
    (∀ l : List String, to_python (.seq l) = .seq l)
      ∧ ∀ v : PyValue, to_python (to_python v) = to_python v := by
  refine ⟨fun l => rfl, fun v => ?_⟩
  cases v with
  | str s => by_cases h : s = "" <;> simp [to_python, h]
  | seq l => rfl

/-- C10: `to_python` keeps empty segments: `","` parses to `["", ""]` and
`"a,,b"` to `["a", "", "b"]`; only the empty string parses to `[]`; and the
round trip with `get_prep_value` fails on the list `[""]`. -/
theorem to_python_keeps_empty_segments :
    to_python (.str ",") = .seq ["", ""]
      ∧ to_python (.str "a,,b") = .seq ["a", "", "b"]
      ∧ to_python (.str (get_prep_value (.seq [""]))) = .seq []
      ∧ to_python (.str (get_prep_value (.seq [""]))) ≠ .seq [""]
      ∧ ∀ s : String, s ≠ "" → to_python (.str s) ≠ .seq [] := by
  refine ⟨by decide, by decide, by decide, by decide, fun s hs => ?_⟩
  simp only [to_python, if_neg hs, ne_eq, PyValue.seq.injEq, List.map_eq_nil_iff,
    pySplit]
  exact splitCommaChars_ne_nil s.data

/-- Witness for the universally quantified part of C10 at the string `","`. -/
theorem to_python_keeps_empty_segments_witness :
    to_python (.str ",") ≠ .seq [] :=
  to_python_keeps_empty_segments.2.2.2.2 "," (by decide)

/-! ### Dynamically-typed view of the converters (for totality, claim C7) -/

/-- A dynamically-typed Python value: a `str`, a list of values, or `None`.
Used to model where the field's converters could raise `TypeError`. -/
inductive PyObj where
  | str : String → PyObj
  | list : List PyObj → PyObj
  | none : PyObj

/-- Model of consuming Python `map(str.strip, value)` over a list value:
`str.strip` raises `TypeError` on a non-`str` element. -/
def stripAll : List PyObj → Except String (List String)
  | [] => .ok []
  | .str s :: rest => (stripAll rest).map fun parts => pyStrip s :: parts
  | _ :: _ => .error "TypeError"

/-- `get_prep_value` over dynamically-typed values: for a non-string the
source evaluates Python `', '.join(map(str.strip, value))`, which raises
`TypeError` (modelled as `Except.error`) unless the value is an iterable of
strings. -/
def get_prep_value_dyn : PyObj → Except String String
  | .str s => .ok s
  | .list l => (stripAll l).map (pyJoin ", ")
  | .none => .error "TypeError"

/-- `to_python` over dynamically-typed values: a string is parsed, every
other value is returned unchanged, so no branch can raise. -/
def to_python_dyn : PyObj → Except String PyObj
  | .str s =>
      .ok (if s = "" then .list []
           else .list (((pySplit s).map pyStrip).map PyObj.str))
  | v => .ok v

/-- The precondition of claim C7: the value is a string or a list whose
elements are all strings. -/
def isStrOrStrList : PyObj → Bool
  | .str _ => true
  | .list l => l.all fun x => match x with | .str _ => true | _ => false
  | .none => false

theorem stripAll_isOk (l : List PyObj) (h : ∀ x ∈ l, ∃ s, x = .str s) :
    ∃ parts, stripAll l = .ok parts := by
  induction l with
  | nil => exact ⟨[], rfl⟩
  | cons x rest ih =>
    obtain ⟨s, rfl⟩ := h x (List.mem_cons_self x rest)
    obtain ⟨parts, hp⟩ := ih fun z hz => h z (List.mem_cons_of_mem _ hz)
    exact ⟨pyStrip s :: parts, by simp [stripAll, hp, Except.map]⟩

/-- C7: on every value that is a string or a sequence of strings, both
`get_prep_value` and `to_python` return a result and never reach an error:
the `TypeError` branches of the dynamically-typed model are unreachable. -/
theorem converters_total_on_wellformed (v : PyObj) (h : isStrOrStrList v = true) :
    (∃ s, get_prep_value_dyn v = .ok s) ∧ ∃ w, to_python_dyn v = .ok w := by
  constructor
  · cases v with
    | str s => exact ⟨s, rfl⟩
    | list l =>
      have hl : ∀ x ∈ l, ∃ s, x = PyObj.str s := by
        simp only [isStrOrStrList, List.all_eq_true] at h
        intro x hx
        have hx2 := h x hx
        cases x with
        | str s => exact ⟨s, rfl⟩
        | list l2 => exact Bool.noConfusion (show false = true from hx2)
        | none => exact Bool.noConfusion (show false = true from hx2)
      obtain ⟨parts, hp⟩ := stripAll_isOk l hl
      exact ⟨pyJoin ", " parts, by simp [get_prep_value_dyn, hp, Except.map]⟩
    | none => exact Bool.noConfusion (show false = true from h)
  · cases v with
    | str s => exact ⟨_, rfl⟩
    | list l => exact ⟨.list l, rfl⟩
    | none => exact ⟨.none, rfl⟩

/-- Witness for C7 at the concrete list value `[" a@x.com "]`. -/
theorem converters_total_on_wellformed_witness :
    (∃ s, get_prep_value_dyn (.list [.str " a@x.com "]) = .ok s)
      ∧ ∃ w, to_python_dyn (.list [.str " a@x.com "]) = .ok w :=
  converters_total_on_wellformed (.list [.str " a@x.com "]) (by decide)

/-! ### Template engine selection (claims C2, C3) -/

/-- A configured template-engine descriptor: the backend import path and the
engine's resolved alias (Django uses the declared `NAME` when present and
otherwise derives the alias from the backend module, e.g. `"django"` for
`django.template.backends.django.DjangoTemplates` and `"jinja2"` for
`django.template.backends.jinja2.Jinja2`). -/
structure EngineDescriptor where
  backend : String
  name : String
deriving DecidableEq

/-- The `POST_OFFICE` configuration slice relevant to engine selection: the
optional `TEMPLATE_ENGINE` preference. -/
structure PostOfficeConfig where
  template_engine : Option String
deriving DecidableEq

/-- The error raised by Django's engine registry for an unknown alias. -/
inductive EngineError where
  | invalidTemplateEngine : String → EngineError
deriving DecidableEq

/-- Modelled from the spec: `get_template_engine` (post_office/settings.py)
and Django's engine registry (`django.template.utils.engines`) are not among
the provided source files.  Per the spec (section 4.2) the selector looks up
the configured preferred engine name among the configured engines and fails
with the engine-not-found error when it is absent; when no preference is
configured the lookup alias defaults to `"django"`, as pinned by the provided
tests (`tests/test_render.py::test_template_engine` expects the engine named
`"django"` even when a jinja2 engine is declared first, and
`test_invalid_engine` expects `InvalidTemplateEngineError` for the unmatched
preference `"nothing"`). -/
def get_template_engine (cfg : PostOfficeConfig)
    (engines : List EngineDescriptor) : Except EngineError EngineDescriptor :=
  let sel := cfg.template_engine.getD "django"
  match engines.find? fun e => decide (e.name = sel) with
  | some e => .ok e
  | none => .error (.invalidTemplateEngine sel)

/-- C2 counterexample: with no preferred engine configured and engines
declared in the order [jinja2, django], the selector returns the engine named
`"django"`, not the first engine in declaration order, so the claim as stated
is false. -/
theorem get_template_engine_not_first_counterexample :
    ¬ (∀ (cfg : PostOfficeConfig) (e : EngineDescriptor)
        (rest : List EngineDescriptor),
        cfg.template_engine = none →
        get_template_engine cfg (e :: rest) = .ok e) := by
  intro hclaim
  have h := hclaim ⟨none⟩ ⟨"django.template.backends.jinja2.Jinja2", "jinja2"⟩
    [⟨"django.template.backends.django.DjangoTemplates", "django"⟩] rfl
  have h2 : get_template_engine ⟨none⟩
      [⟨"django.template.backends.jinja2.Jinja2", "jinja2"⟩,
        ⟨"django.template.backends.django.DjangoTemplates", "django"⟩]
      = .ok ⟨"django.template.backends.django.DjangoTemplates", "django"⟩ := rfl
  rw [h2] at h
  injection h with h3
  exact absurd (congrArg EngineDescriptor.name h3) (by decide)

/-- C2 (amended): when no preferred engine name is configured the selector
resolves the default alias `"django"`: whenever some configured engine is
named `"django"`, the selector succeeds and the engine it returns is one of
the configured engines named `"django"` — wherever it appears in the list,
not the positionally first engine.  (This conclusion fails under the refuted
first-engine semantics: for the list [jinja2, django] the first engine is
named `"jinja2"`.) -/
theorem get_template_engine_default_django (cfg : PostOfficeConfig)
    (engines : List EngineDescriptor)
    (h1 : cfg.template_engine = none)
    (h2 : ∃ d ∈ engines, d.name = "django") :
    ∃ e, get_template_engine cfg engines = .ok e
      ∧ e.name = "django" ∧ e ∈ engines := by
  have hsome : (engines.find? fun e => decide (e.name = "django")).isSome := by
    rw [List.find?_isSome]
    obtain ⟨d, hd, hname⟩ := h2
    exact ⟨d, hd, by simp [hname]⟩
  obtain ⟨e, he⟩ := Option.isSome_iff_exists.mp hsome
  refine ⟨e, ?_, ?_, List.mem_of_find?_eq_some he⟩
  · simp [get_template_engine, h1, he]
  · simpa using List.find?_some he

/-- Witness for the amended C2 at the configuration of
`test_template_engine`: engines declared as [jinja2, django] with no
preference, where the django-named engine is not positionally first. -/
theorem get_template_engine_default_django_witness :
    ∃ e, get_template_engine ⟨none⟩
        [⟨"django.template.backends.jinja2.Jinja2", "jinja2"⟩,
          ⟨"django.template.backends.django.DjangoTemplates", "django"⟩]
      = .ok e
      ∧ e.name = "django"
      ∧ e ∈ [⟨"django.template.backends.jinja2.Jinja2", "jinja2"⟩,
          ⟨"django.template.backends.django.DjangoTemplates", "django"⟩] :=
  get_template_engine_default_django ⟨none⟩
    [⟨"django.template.backends.jinja2.Jinja2", "jinja2"⟩,
      ⟨"django.template.backends.django.DjangoTemplates", "django"⟩]
    rfl
    ⟨⟨"django.template.backends.django.DjangoTemplates", "django"⟩,
      by decide, rfl⟩

/-- C3: when a preferred engine name is configured but matches no configured
engine, the selector fails with the invalid-template-engine error for that
name; it does not return an engine. -/
theorem get_template_engine_not_found (cfg : PostOfficeConfig)
    (engines : List EngineDescriptor) (n : String)
    (h1 : cfg.template_engine = some n) (h2 : ∀ e ∈ engines, e.name ≠ n) :
    get_template_engine cfg engines = .error (.invalidTemplateEngine n) := by
  have hfind : engines.find? (fun e => decide (e.name = n)) = none := by
    rw [List.find?_eq_none]
    intro e he
    simp [h2 e he]
  simp [get_template_engine, h1, hfind]

/-- Witness for C3 at the configuration of `test_invalid_engine`: preference
`"nothing"` against a sole engine named `"django"`. -/
theorem get_template_engine_not_found_witness :
    get_template_engine ⟨some "nothing"⟩
      [⟨"django.template.backends.django.DjangoTemplates", "django"⟩]
      = .error (.invalidTemplateEngine "nothing") :=
  get_template_engine_not_found _ _ _ rfl (by decide)

/-! ### Template rendering (claim C8) -/

/-- Look up a placeholder name in a rendering context (a mapping from
variable names to substitution values); Django renders an empty string for a
missing variable. -/
def lookupContext (ctx : List (String × String)) (key : String) : String :=
  match ctx.find? fun p => decide (p.fst = key) with
  | some p => p.snd
  | none => ""

/-- Modelled from the spec: the template rendering performed through
`Email.email_message` (post_office/models.py) and the configured template
backends are not among the provided source files.  Per the spec (sections 4.2
and 8 and the glossary) an engine renders a template by substituting each
`{{ name }}` placeholder with the context value bound to the
whitespace-trimmed placeholder name; both configured backends agree on this
for simple variable placeholders.  The first argument tracks whether the scan
is inside a placeholder (accumulating its reversed name) or in plain text. -/
def renderChars (ctx : List (String × String)) :
    Option (List Char) → List Char → List Char
  | none, [] => []
  | none, '{' :: '{' :: rest => renderChars ctx (some []) rest
  | none, c :: rest => c :: renderChars ctx none rest
  | some _, [] => []
  | some acc, '}' :: '}' :: rest =>
      (lookupContext ctx (String.mk (stripChars acc.reverse))).data
        ++ renderChars ctx none rest
  | some acc, c :: rest => renderChars ctx (some (c :: acc)) rest

/-- Render a template string under a context. -/
def render (ctx : List (String × String)) (tpl : String) : String :=
  String.mk (renderChars ctx none tpl.data)

/-- C8: rendering the subject template `Subject {{ name }}` (with or without
whitespace inside the delimiters) under the context binding `name` to `test`
yields `Subject test`. -/
theorem render_subject_substitutes :
    render [("name", "test")] "Subject \x7b\x7b name \x7d\x7d" = "Subject test"
      ∧ render [("name", "test")] "Subject \x7b\x7bname\x7d\x7d" = "Subject test" := by
  constructor <;> rfl
